import Mathlib

/-!
Verification development for the `spear-cli` build pipeline
(`packages/spear-cli/src/magic.ts`).

The pipeline is shallowly embedded: the orchestrator `bundle`, the
settings loader `loadSettings` and the plugin-hook loops are translated
into pure Lean functions.  External collaborators (the `FileUtil`
file-system helper, the DOM resolver `parseElements`, the alias-page
generator, `node-html-parser`, the deep-copy helpers from
`utils/util.js`) live outside `src/` and are modelled abstractly through
an environment record `Env`; each such definition carries a doc comment
naming what it models.  Every collaborator invocation is recorded in an
event trace so that ordering and isolation properties can be stated.
-/

namespace Spear

/-- Modelled from the spec: a document node of `node-html-parser`
(external library).  Only the pieces `magic.ts` touches are kept: a tag
name and the owned `childNodes` sequence. -/
inductive Element where
  | mk (tagName : String) (childNodes : List Element) : Element

/-- Tag name of a node. -/
def Element.tagName : Element → String
  | .mk t _ => t

/-- Child sequence of a node (`node.childNodes`). -/
def Element.childNodes : Element → List Element
  | .mk _ cs => cs

/-- Functional counterpart of the assignment `node.childNodes = cs`. -/
def Element.withChildNodes : Element → List Element → Element
  | .mk t _, cs => .mk t cs

@[simp]
theorem Element.childNodes_withChildNodes (e : Element) (cs : List Element) :
    (e.withChildNodes cs).childNodes = cs := by
  cases e; rfl

/-- Modelled from the spec: a `Component` record of
`interfaces/MagicInterfaces.ts` (not under `src/`): source file name,
reference tag name, serialized markup, owned node and default props. -/
structure Component where
  fname : String
  tagName : String
  rawData : String
  node : Element
  props : List (String × String)

/-- Modelled from the spec: a `Page` record of
`interfaces/MagicInterfaces.ts` (not under `src/`): the page's source
identity plus its owned document node. -/
structure Page where
  fname : String
  node : Element

/-- The `out` sub-record of the build state (`magic.ts` lines 59-61). -/
structure SpearOut where
  assetsFiles : List String

/-- The working build context of one pass (`magic.ts` lines 54-62).
`globalProps` holds arbitrary JSON values in the source; it is modelled
as a string-to-string association list. -/
structure State where
  pagesList : List Page
  componentsList : List Component
  body : Element
  globalProps : List (String × String)
  out : SpearOut

/-- Outcome of one plugin-hook invocation: the hook either raises, or
returns nothing (`void` / falsy), or returns a replacement value. -/
inductive HookOutcome (α : Type) where
  | throws : HookOutcome α
  | ret : Option α → HookOutcome α

/-- A plugin (`SettingsInterfaces.ts`, used by `magic.ts`): a
diagnostics name plus four optional hooks.  The three state hooks are
embedded as functions; the `configuration` hook would make `Settings`
occur negatively in itself (a plugin list lives inside `Settings`), so
it is defunctionalized: the slot stores an identifier and the hook body
is looked up in the environment (`Env.confHookImpl`). -/
structure Plugin where
  pluginName : String
  configuration : Option Nat := none
  beforeBuild : Option (State → HookOutcome State) := none
  afterBuild : Option (State → HookOutcome State) := none
  bundle : Option (State → HookOutcome State) := none

/-- The resolved configuration record (`DefaultSettings` of
`SettingsInterfaces.ts`, populated in `magic.ts` lines 30-50). -/
structure DefaultSettings where
  projectName : String
  settingsFile : String
  pagesFolder : String
  componentsFolder : List String
  srcDir : List String
  distDir : String
  entry : String
  template : String
  spearlyAuthKey : String
  port : Nat
  host : String
  crossOriginIsolation : Bool
  apiDomain : String
  analysysDomain : String
  generateSitemap : Bool
  siteURL : String
  rootDir : String
  plugins : List Plugin
  quiteMode : Bool

/-- Default settings built by `initializeArgument` (`magic.ts` lines
26-51) for a resolved working directory `dirname`. -/
def defaultSettingsOf (dirname : String) : DefaultSettings :=
  { projectName := "Spear CLI"
    settingsFile := "spear.config"
    pagesFolder := dirname ++ "/src/pages"
    componentsFolder := [dirname ++ "/src/components"]
    srcDir := [dirname ++ "/src"]
    distDir := dirname ++ "/dist"
    entry := dirname ++ "/src/pages/index.?(spear|html)"
    template := dirname ++ "/public/index.html"
    spearlyAuthKey := ""
    port := 8080
    host := "0.0.0.0"
    crossOriginIsolation := false
    apiDomain := "api.spearly.com"
    analysysDomain := "analytics.spearly.com"
    generateSitemap := false
    siteURL := ""
    rootDir := dirname
    plugins := []
    quiteMode := false }

/-- Per-key overlay loaded from the settings file
(`loadSettingsFromFile`, `magic.ts` lines 167-174, copies every key
present in the loaded data onto `Settings`). -/
structure SettingsPatch where
  projectName : Option String := none
  settingsFile : Option String := none
  pagesFolder : Option String := none
  componentsFolder : Option (List String) := none
  srcDir : Option (List String) := none
  distDir : Option String := none
  entry : Option String := none
  template : Option String := none
  spearlyAuthKey : Option String := none
  port : Option Nat := none
  host : Option String := none
  crossOriginIsolation : Option Bool := none
  apiDomain : Option String := none
  analysysDomain : Option String := none
  generateSitemap : Option Bool := none
  siteURL : Option String := none
  rootDir : Option String := none
  plugins : Option (List Plugin) := none
  quiteMode : Option Bool := none

/-- Overlay a settings patch: `Object.keys(data).forEach(k => Settings[k] = data[k])`. -/
def applyPatch (s : DefaultSettings) (p : SettingsPatch) : DefaultSettings :=
  { projectName := p.projectName.getD s.projectName
    settingsFile := p.settingsFile.getD s.settingsFile
    pagesFolder := p.pagesFolder.getD s.pagesFolder
    componentsFolder := p.componentsFolder.getD s.componentsFolder
    srcDir := p.srcDir.getD s.srcDir
    distDir := p.distDir.getD s.distDir
    entry := p.entry.getD s.entry
    template := p.template.getD s.template
    spearlyAuthKey := p.spearlyAuthKey.getD s.spearlyAuthKey
    port := p.port.getD s.port
    host := p.host.getD s.host
    crossOriginIsolation := p.crossOriginIsolation.getD s.crossOriginIsolation
    apiDomain := p.apiDomain.getD s.apiDomain
    analysysDomain := p.analysysDomain.getD s.analysysDomain
    generateSitemap := p.generateSitemap.getD s.generateSitemap
    siteURL := p.siteURL.getD s.siteURL
    rootDir := p.rootDir.getD s.rootDir
    plugins := p.plugins.getD s.plugins
    quiteMode := p.quiteMode.getD s.quiteMode }

/-! ## Settings deduplication (`magic.ts` lines 181-187) -/

/-- JavaScript `String.prototype.startsWith`, modelled on the character
sequence of the string. -/
def jsStartsWith (s sPre : String) : Bool := sPre.data.isPrefixOf s.data

/-- JavaScript `String.prototype.endsWith`, modelled on the character
sequence of the string. -/
def jsEndsWith (s sSuf : String) : Bool := sSuf.data.isSuffixOf s.data

/-- The callback of `Settings.srcDir.some(...)` inside the dedup filter
(`magic.ts` lines 183-186), translated literally:

    if (srcDir !== srcDir2 && !srcDir2.endsWith("components")) return false
    return srcDir !== srcDir2 && srcDir.startsWith(srcDir2)
-/
def srcDirSomeCallback (srcDir srcDir2 : String) : Bool :=
  if srcDir != srcDir2 && !(jsEndsWith srcDir2 "components") then false
  else srcDir != srcDir2 && jsStartsWith srcDir srcDir2

/-- The dedup filter itself (`magic.ts` lines 182-187):
`Settings.srcDir.filter(srcDir => !Settings.srcDir.some(srcDir2 => ...))`. -/
def dedupSrcDir (l : List String) : List String :=
  l.filter fun srcDir => !(l.any fun srcDir2 => srcDirSomeCallback srcDir srcDir2)

theorem srcDirSomeCallback_eq_true (a b : String) :
    srcDirSomeCallback a b = true ↔
      a ≠ b ∧ jsEndsWith b "components" = true ∧ jsStartsWith a b = true := by
  unfold srcDirSomeCallback
  by_cases hab : a = b
  · subst hab
    simp
  · by_cases hend : jsEndsWith b "components" = true
    · simp [hab, hend]
    · simp [hab, hend]

theorem mem_dedupSrcDir (l : List String) (a : String) :
    a ∈ dedupSrcDir l ↔
      a ∈ l ∧ ¬ ∃ b, b ∈ l ∧ a ≠ b ∧ jsEndsWith b "components" = true ∧
        jsStartsWith a b = true := by
  unfold dedupSrcDir
  rw [List.mem_filter]
  constructor
  · rintro ⟨hmem, hpred⟩
    refine ⟨hmem, ?_⟩
    rintro ⟨b, hb, hne, hend, hstart⟩
    have : l.any (fun srcDir2 => srcDirSomeCallback a srcDir2) = true :=
      List.any_eq_true.mpr ⟨b, hb, (srcDirSomeCallback_eq_true a b).mpr ⟨hne, hend, hstart⟩⟩
    simp [this] at hpred
  · rintro ⟨hmem, hno⟩
    refine ⟨hmem, ?_⟩
    simp only [Bool.not_eq_true']
    rw [List.any_eq_false]
    intro b hb hcb
    exact hno ⟨b, hb, (srcDirSomeCallback_eq_true a b).mp hcb⟩

/-! ## Events, collaborators and the hook runner -/

/-- Checkpoints of the plugin hook pipeline. -/
inductive HookKind where
  | configuration | beforeBuild | afterBuild | bundleHook
deriving DecidableEq

/-- Observable events of one build pass.  Hook-invocation events record
the value handed to the hook; `resolveCall` records a completed
`parseElements` collaborator call with its input and output sequences. -/
inductive Ev where
  | warn (msg : String)
  | logError (msg : String)
  | hookCall (k : HookKind) (name : String) (st : State)
  | confCall (name : String) (s : DefaultSettings)
  | loadFileCall
  | createDirCall
  | parseComponentsCall (dir : String)
  | parsePagesCall (dir : String)
  | resolveCall (input output : List Element)
  | aliasCall
  | dumpCall

/-- Payload-free label of an event, for ordering statements. -/
inductive EvLabel where
  | warnL | logErrorL
  | hookL (k : HookKind) (name : String)
  | loadFileL | createDirL
  | parseComponentsL (dir : String)
  | parsePagesL (dir : String)
  | resolveL | aliasL | dumpL
deriving DecidableEq

/-- Project an event to its label. -/
def evLabel : Ev → EvLabel
  | .warn _ => .warnL
  | .logError _ => .logErrorL
  | .hookCall k n _ => .hookL k n
  | .confCall n _ => .hookL .configuration n
  | .loadFileCall => .loadFileL
  | .createDirCall => .createDirL
  | .parseComponentsCall d => .parseComponentsL d
  | .parsePagesCall d => .parsePagesL d
  | .resolveCall _ _ => .resolveL
  | .aliasCall => .aliasL
  | .dumpCall => .dumpL

/-- Project an event to a (checkpoint, plugin name) pair when it is a
hook invocation. -/
def hookEvProj : Ev → Option (HookKind × String)
  | .hookCall k n _ => some (k, n)
  | .confCall n _ => some (HookKind.configuration, n)
  | _ => none

/-- Hook-invocation events of a trace, as (checkpoint, plugin name)
pairs in trace order. -/
def hookEvs (tr : List Ev) : List (HookKind × String) :=
  tr.filterMap hookEvProj

/-- Project an event to an (input, output) pair when it is a completed
resolver call. -/
def resolveEvProj : Ev → Option (List Element × List Element)
  | .resolveCall i o => some (i, o)
  | _ => none

/-- Completed resolver calls of a trace, as (input, output) pairs in
trace order. -/
def resolveEvs (tr : List Ev) : List (List Element × List Element) :=
  tr.filterMap resolveEvProj

/-- Result of `bundle()`: either the returned boolean (`ret`) or an
uncaught exception escaping the `async` function (`exn`), together with
the event trace of the pass. -/
inductive BResult where
  | ret (b : Bool) (tr : List Ev)
  | exn (msg : String) (tr : List Ev)

/-- Prepend earlier events to a result's trace. -/
def BResult.prepend (evs : List Ev) : BResult → BResult
  | .ret b tr => .ret b (evs ++ tr)
  | .exn e tr => .exn e (evs ++ tr)

/-- The event trace of a result. -/
def BResult.trace : BResult → List Ev
  | .ret _ tr => tr
  | .exn _ tr => tr

@[simp]
theorem BResult.trace_prepend (evs : List Ev) (r : BResult) :
    (r.prepend evs).trace = evs ++ r.trace := by
  cases r <;> rfl

/-- Modelled from the spec: `stateDeepCopy` (`utils/util.js`, not under
`src/`) returns a deep structural copy of the state.  On the pure values
of this embedding a deep copy is extensionally the identity; the
aliasing content of the copy is modelled separately by `hookStepH`
below. -/
def stateDeepCopy (st : State) : State := st

/-- Modelled from the spec: `defaultSettingDeepCopy` (`utils/util.js`,
not under `src/`), the settings analogue of `stateDeepCopy`. -/
def defaultSettingDeepCopy (s : DefaultSettings) : DefaultSettings := s

/-- Warning printed when a `beforeBuild` hook raises
(`magic.ts` line 77). -/
def beforeBuildWarn (n : String) : String := " plugin process failed. [" ++ n ++ "]"

/-- Warning printed when an `afterBuild` hook raises
(`magic.ts` line 140). -/
def afterBuildWarn (n : String) : String := " plugin process failed. [" ++ n ++ "]"

/-- Warning printed when a `bundle` hook raises (`magic.ts` line 159;
the template leaves a stray closing brace after the name). -/
def bundleHookWarn (n : String) : String := " plugin process failed. " ++ n ++ "\x7d"

/-- Warning printed when a `configuration` hook raises (`magic.ts`
line 200; the template leaves two stray closing braces). -/
def configurationWarn (n : String) : String := " plugin process failed. " ++ n ++ "\x7d\x7d"

/-- One plugin-hook loop (`magic.ts` lines 67-80, 130-143, 149-162,
190-203; the four loops are textually identical up to the selected hook
slot, the warning text and the deep-copy helper, so they share this one
definition).  For each plugin in list order: if the hook slot is absent
the plugin is skipped; otherwise the hook is invoked on the current
value (recorded as an event); a raising hook logs a warning and leaves
the value unchanged; a hook returning a value replaces it with a deep
copy; a hook returning nothing leaves it unchanged. -/
def runHooks {α β : Type} (sel : Plugin → Option β) (app : β → α → HookOutcome α)
    (mkEv : String → α → Ev) (warnOf : String → String) (copy : α → α) :
    List Plugin → α → α × List Ev
  | [], st => (st, [])
  | p :: ps, st =>
    match sel p with
    | none => runHooks sel app mkEv warnOf copy ps st
    | some hk =>
      match app hk st with
      | .throws =>
        ((runHooks sel app mkEv warnOf copy ps st).1,
         mkEv p.pluginName st :: Ev.warn (warnOf p.pluginName) ::
           (runHooks sel app mkEv warnOf copy ps st).2)
      | .ret none =>
        ((runHooks sel app mkEv warnOf copy ps st).1,
         mkEv p.pluginName st :: (runHooks sel app mkEv warnOf copy ps st).2)
      | .ret (some v) =>
        ((runHooks sel app mkEv warnOf copy ps (copy v)).1,
         mkEv p.pluginName st :: (runHooks sel app mkEv warnOf copy ps (copy v)).2)

/-- The `SpearlyJSGenerator` constructed at `magic.ts` line 64; the
generator itself is external (`@spearly/cms-js-core`), only its
constructor arguments are observable. -/
structure SpearlyJSGenerator where
  spearlyAuthKey : String
  apiDomain : String
  analysysDomain : String

/-- The call `new SpearlyJSGenerator(Settings.spearlyAuthKey, Settings.apiDomain,
Settings.analysysDomain)` (`magic.ts` line 64). -/
def jsGeneratorOf (s : DefaultSettings) : SpearlyJSGenerator :=
  { spearlyAuthKey := s.spearlyAuthKey
    apiDomain := s.apiDomain
    analysysDomain := s.analysysDomain }

/-- Modelled from the spec: behaviour of the external collaborators
invoked by `magic.ts` — the `FileUtil` helper (`utils/file.js`), the
resolver `parseElements` and alias generator
`generateAliasPagesFromPagesList` (`utils/dom.js`), the settings file
loader, the `outerHTML` serializer of `node-html-parser`, and the
defunctionalized bodies of plugin `configuration` hooks.  None of these
files is under `src/`; each operation may either return a value or
raise (modelled as `Except`). -/
structure Env where
  loadFile : Option SettingsPatch
  confHookImpl : Nat → DefaultSettings → HookOutcome DefaultSettings
  createDir : DefaultSettings → Except String Unit
  parseComponents : State → String → DefaultSettings → Except String State
  parsePages : State → String → Except String State
  parseElements : State → List Element → SpearlyJSGenerator → DefaultSettings →
    Except String (List Element)
  generateAliasPagesFromPagesList : State → SpearlyJSGenerator → DefaultSettings →
    Except String (List Page)
  dumpPages : State → String → DefaultSettings → Except String Unit
  outerHTML : Element → String

/-! ## The build orchestrator `bundle` (`magic.ts` lines 53-165) -/

/-- The empty state constructed at the start of `bundle()`
(`magic.ts` lines 54-62); `body` is `parse("")`. -/
def emptyState : State :=
  { pagesList := []
    componentsList := []
    body := Element.mk "" []
    globalProps := []
    out := { assetsFiles := [] } }

/-- The `beforeBuild` hook loop (`magic.ts` lines 67-80), always run on
the freshly constructed empty state. -/
def beforeBuildStage (s : DefaultSettings) : State × List Ev :=
  runHooks Plugin.beforeBuild (fun f => f) (Ev.hookCall .beforeBuild)
    beforeBuildWarn stateDeepCopy s.plugins emptyState

/-- The `afterBuild` hook loop (`magic.ts` lines 130-143). -/
def afterBuildStage (s : DefaultSettings) (st : State) : State × List Ev :=
  runHooks Plugin.afterBuild (fun f => f) (Ev.hookCall .afterBuild)
    afterBuildWarn stateDeepCopy s.plugins st

/-- The `bundle` hook loop (`magic.ts` lines 149-162). -/
def bundleHooksStage (s : DefaultSettings) (st : State) : State × List Ev :=
  runHooks Plugin.bundle (fun f => f) (Ev.hookCall .bundleHook)
    bundleHookWarn stateDeepCopy s.plugins st

/-- The component-directory parse loop (`magic.ts` lines 87-89 inside
the `try`): each configured folder is handed to
`fileUtil.parseComponents`, which transforms the state; the first
raising call aborts the loop. -/
def parseCompLoop (env : Env) (s : DefaultSettings) :
    List String → State → Except String State × List Ev
  | [], st => (.ok st, [])
  | d :: ds, st =>
    match env.parseComponents st d s with
    | .error e => (.error e, [Ev.parseComponentsCall d])
    | .ok st' =>
      ((parseCompLoop env s ds st').1,
       Ev.parseComponentsCall d :: (parseCompLoop env s ds st').2)

/-- The source-directory parse loop (`magic.ts` lines 96-98 inside the
`try`): each configured `srcDir` is handed to `fileUtil.parsePages`. -/
def parsePagesLoop (env : Env) :
    List String → State → Except String State × List Ev
  | [], st => (.ok st, [])
  | d :: ds, st =>
    match env.parsePages st d with
    | .error e => (.error e, [Ev.parsePagesCall d])
    | .ok st' =>
      ((parsePagesLoop env ds st').1,
       Ev.parsePagesCall d :: (parsePagesLoop env ds st').2)

/-- The component re-resolution loop (`magic.ts` lines 106-116): every
component's own children are re-resolved once against the state `st`
(which still holds the pre-rebuild `componentsList` for the whole loop),
and a fresh component is pushed that keeps `fname` and `tagName`, resets
`props`, and takes `node` and `rawData` from `parsedNode[0]` only.  When
`parsedNode` is empty, reading `parsedNode[0].outerHTML` raises a
`TypeError` that escapes `bundle()` uncaught. -/
def reResolveComponents (env : Env) (s : DefaultSettings)
    (g : SpearlyJSGenerator) (st : State) :
    List Component → Except String (List Component) × List Ev
  | [] => (.ok [], [])
  | c :: cs =>
    match env.parseElements st c.node.childNodes g s with
    | .error e => (.error e, [])
    | .ok parsedNode =>
      match parsedNode with
      | [] =>
        (.error "TypeError: Cannot read properties of undefined (reading outerHTML)",
         [Ev.resolveCall c.node.childNodes []])
      | n :: rest =>
        match reResolveComponents env s g st cs with
        | (.error e, evs) =>
          (.error e, Ev.resolveCall c.node.childNodes (n :: rest) :: evs)
        | (.ok comps, evs) =>
          (.ok ({ fname := c.fname
                  rawData := env.outerHTML n
                  tagName := c.tagName
                  node := n
                  props := [] } :: comps),
           Ev.resolveCall c.node.childNodes (n :: rest) :: evs)

/-- The page re-resolution loop (`magic.ts` lines 120-124): for each
page, in list order, `parseElements` is applied to `page.childNodes`
and then applied again to its own output; the page object inside
`state.pagesList` is updated in place after each application, so later
calls observe earlier updates. -/
def pageResolveLoop (env : Env) (s : DefaultSettings) (g : SpearlyJSGenerator) :
    Nat → Nat → State → Except String State × List Ev
  | 0, _, st => (.ok st, [])
  | n + 1, i, st =>
    match st.pagesList[i]? with
    | none => (.ok st, [])
    | some pg =>
      match env.parseElements st pg.node.childNodes g s with
      | .error e => (.error e, [])
      | .ok out1 =>
        let pg1 : Page := { pg with node := pg.node.withChildNodes out1 }
        let st1 : State := { st with pagesList := st.pagesList.set i pg1 }
        match env.parseElements st1 pg1.node.childNodes g s with
        | .error e => (.error e, [Ev.resolveCall pg.node.childNodes out1])
        | .ok out2 =>
          let pg2 : Page := { pg1 with node := pg1.node.withChildNodes out2 }
          let st2 : State := { st1 with pagesList := st1.pagesList.set i pg2 }
          ((pageResolveLoop env s g n (i + 1) st2).1,
           Ev.resolveCall pg.node.childNodes out1 ::
             Ev.resolveCall pg1.node.childNodes out2 ::
             (pageResolveLoop env s g n (i + 1) st2).2)

/-- Base directory handed to `dumpPages` (`magic.ts` lines 17-18); its
concrete value is irrelevant to the pipeline. -/
def libDirname : String := "/lib/spear-cli"

/-- Tail of `bundle()` from the `bundle` hook loop on
(`magic.ts` lines 149-164). -/
def bundleStageBundleHooks (s : DefaultSettings) (st : State) : BResult :=
  .ret true (bundleHooksStage s st).2

/-- Tail of `bundle()` from the page dump on (`magic.ts` lines
145-164); `fileUtil.dumpPages` is not guarded, so a raise escapes. -/
def bundleStageDump (env : Env) (s : DefaultSettings) (st : State) : BResult :=
  match env.dumpPages st libDirname s with
  | .error e => .exn e [Ev.dumpCall]
  | .ok _ => (bundleStageBundleHooks s st).prepend [Ev.dumpCall]

/-- Tail of `bundle()` from the `afterBuild` hook loop on
(`magic.ts` lines 129-164). -/
def bundleStageAfter (env : Env) (s : DefaultSettings) (st : State) : BResult :=
  (bundleStageDump env s (afterBuildStage s st).1).prepend (afterBuildStage s st).2

/-- Tail of `bundle()` from alias-page generation on (`magic.ts` lines
126-164); `generateAliasPagesFromPagesList` is not guarded, so a raise
escapes. -/
def bundleStageAlias (env : Env) (s : DefaultSettings) (g : SpearlyJSGenerator)
    (st : State) : BResult :=
  match env.generateAliasPagesFromPagesList st g s with
  | .error e => .exn e [Ev.aliasCall]
  | .ok newPages =>
    (bundleStageAfter env s { st with pagesList := newPages }).prepend [Ev.aliasCall]

/-- Tail of `bundle()` from the page re-resolution loop on
(`magic.ts` lines 119-164); the loop is not guarded, so a raise
escapes. -/
def bundleStagePages (env : Env) (s : DefaultSettings) (g : SpearlyJSGenerator)
    (st : State) : BResult :=
  match pageResolveLoop env s g st.pagesList.length 0 st with
  | (.error e, evs) => .exn e evs
  | (.ok st', evs) => (bundleStageAlias env s g st').prepend evs

/-- Tail of `bundle()` from the component re-resolution loop on
(`magic.ts` lines 104-164); the loop is not guarded, so a raise
escapes.  The rebuilt list replaces `state.componentsList` only after
the whole loop (`magic.ts` line 117). -/
def bundleStageReResolve (env : Env) (s : DefaultSettings) (g : SpearlyJSGenerator)
    (st : State) : BResult :=
  match reResolveComponents env s g st st.componentsList with
  | (.error e, evs) => .exn e evs
  | (.ok comps, evs) =>
    (bundleStagePages env s g { st with componentsList := comps }).prepend evs

/-- Tail of `bundle()` from the source-directory parse on
(`magic.ts` lines 95-164): a raise inside the loop is caught, logged
via `logger.error`, and makes `bundle()` return `false`. -/
def bundleStageParsePages (env : Env) (s : DefaultSettings) (g : SpearlyJSGenerator)
    (st : State) : BResult :=
  match parsePagesLoop env s.srcDir st with
  | (.error e, evs) => .ret false (evs ++ [Ev.logError e])
  | (.ok st', evs) => (bundleStageReResolve env s g st').prepend evs

/-- Tail of `bundle()` from the component-directory parse on
(`magic.ts` lines 85-164): a raise inside the loop is caught, logged
via `logger.error`, and makes `bundle()` return `false`. -/
def bundleStageParseComps (env : Env) (s : DefaultSettings) (g : SpearlyJSGenerator)
    (st : State) : BResult :=
  match parseCompLoop env s s.componentsFolder st with
  | (.error e, evs) => .ret false (evs ++ [Ev.logError e])
  | (.ok st', evs) => (bundleStageParsePages env s g st').prepend evs

/-- Tail of `bundle()` from dist-folder creation on (`magic.ts` lines
82-164); `fileUtil.createDir` is not guarded, so a raise escapes. -/
def bundleStageCreateDir (env : Env) (s : DefaultSettings) (g : SpearlyJSGenerator)
    (st : State) : BResult :=
  match env.createDir s with
  | .error e => .exn e [Ev.createDirCall]
  | .ok _ => (bundleStageParseComps env s g st).prepend [Ev.createDirCall]

/-- The build orchestrator `bundle()` (`magic.ts` lines 53-165): a new
empty state, the `beforeBuild` hooks, then the staged tail above. -/
def bundle (env : Env) (s : DefaultSettings) : BResult :=
  (bundleStageCreateDir env s (jsGeneratorOf s) (beforeBuildStage s).1).prepend
    (beforeBuildStage s).2

/-! ## Settings loading (`magic.ts` lines 167-204) -/

/-- Settings after `loadSettingsFromFile` (`magic.ts` lines 167-174,
178): the loaded data, when any, is overlaid key by key. -/
def settingsAfterFile (env : Env) (s : DefaultSettings) : DefaultSettings :=
  match env.loadFile with
  | none => s
  | some p => applyPatch s p

/-- Settings after the `srcDir` dedup assignment (`magic.ts` lines
182-187), still before any plugin hook. -/
def settingsAfterDedup (env : Env) (s : DefaultSettings) : DefaultSettings :=
  { settingsAfterFile env s with srcDir := dedupSrcDir (settingsAfterFile env s).srcDir }

/-- The `configuration` hook loop (`magic.ts` lines 190-203); the
iterated plugin list is the one captured when the loop starts. -/
def configurationStage (env : Env) (s2 : DefaultSettings) :
    DefaultSettings × List Ev :=
  runHooks Plugin.configuration env.confHookImpl Ev.confCall
    configurationWarn defaultSettingDeepCopy s2.plugins s2

/-- Function `loadSettings` (`magic.ts` lines 176-204): file overlay, `srcDir`
dedup, then the `configuration` hooks. -/
def loadSettings (env : Env) (s : DefaultSettings) : DefaultSettings × List Ev :=
  ((configurationStage env (settingsAfterDedup env s)).1,
   Ev.loadFileCall :: (configurationStage env (settingsAfterDedup env s)).2)

/-- One `build`-action pass of `magic` (`magic.ts` lines 206-213,
270-271): argument defaults, `loadSettings`, then `bundle`. -/
def magicBuild (env : Env) (dirname : String) : DefaultSettings × BResult :=
  ((loadSettings env (defaultSettingsOf dirname)).1,
   (bundle env (loadSettings env (defaultSettingsOf dirname)).1).prepend
     (loadSettings env (defaultSettingsOf dirname)).2)

/-- A watch-mode re-trigger (`magic.ts` lines 231-237): on a file-system
change the settings are reloaded and `bundle()` runs again; no state
from the previous pass is passed along. -/
def watchRetrigger (env : Env) (s : DefaultSettings) : DefaultSettings × BResult :=
  ((loadSettings env s).1,
   (bundle env (loadSettings env s).1).prepend (loadSettings env s).2)

/-! ## Helper lemmas about the hook runner -/

theorem runHooks_append {α β : Type} (sel : Plugin → Option β)
    (app : β → α → HookOutcome α) (mkEv : String → α → Ev)
    (warnOf : String → String) (copy : α → α) (l₁ l₂ : List Plugin) (st : α) :
    runHooks sel app mkEv warnOf copy (l₁ ++ l₂) st =
      ((runHooks sel app mkEv warnOf copy l₂
          (runHooks sel app mkEv warnOf copy l₁ st).1).1,
       (runHooks sel app mkEv warnOf copy l₁ st).2 ++
         (runHooks sel app mkEv warnOf copy l₂
           (runHooks sel app mkEv warnOf copy l₁ st).1).2) := by
  induction l₁ generalizing st with
  | nil => simp [runHooks]
  | cons p ps ih =>
    simp only [List.cons_append, runHooks]
    cases hsel : sel p with
    | none => exact ih st
    | some hk =>
      cases happ : app hk st with
      | throws => simp [happ, ih st]
      | ret o =>
        cases o with
        | none => simp [happ, ih st]
        | some v => simp [happ, ih (copy v)]

/-- The hook invocations performed by one checkpoint loop over `ps`. -/
def hookCallsOf (k : HookKind) (hasHook : Plugin → Bool)
    (ps : List Plugin) : List (HookKind × String) :=
  (ps.filter hasHook).map fun p => (k, p.pluginName)

theorem hookEvs_append (t₁ t₂ : List Ev) :
    hookEvs (t₁ ++ t₂) = hookEvs t₁ ++ hookEvs t₂ :=
  List.filterMap_append t₁ t₂ hookEvProj

theorem resolveEvs_append (t₁ t₂ : List Ev) :
    resolveEvs (t₁ ++ t₂) = resolveEvs t₁ ++ resolveEvs t₂ :=
  List.filterMap_append t₁ t₂ resolveEvProj

theorem hookEvProj_warn (m : String) : hookEvProj (Ev.warn m) = none := rfl

theorem runHooks_hookEvs {α β : Type} (sel : Plugin → Option β)
    (app : β → α → HookOutcome α) (mkEv : String → α → Ev)
    (warnOf : String → String) (copy : α → α) (k : HookKind)
    (hmk : ∀ n (st : α), hookEvProj (mkEv n st) = some (k, n)) :
    ∀ (ps : List Plugin) (st : α),
      hookEvs (runHooks sel app mkEv warnOf copy ps st).2 =
        hookCallsOf k (fun p => (sel p).isSome) ps := by
  intro ps
  induction ps with
  | nil => intro st; simp [runHooks, hookEvs, hookCallsOf]
  | cons p ps ih =>
    intro st
    simp only [runHooks]
    cases hsel : sel p with
    | none =>
      have := ih st
      simp only [hookCallsOf, hookEvs] at this ⊢
      simp [hsel, List.filter_cons, this]
    | some hk =>
      cases happ : app hk st with
      | throws =>
        have := ih st
        simp only [hookCallsOf, hookEvs] at this ⊢
        simp [happ, List.filterMap_cons, hmk, hookEvProj_warn, List.filter_cons, hsel, this]
      | ret o =>
        cases o with
        | none =>
          have := ih st
          simp only [hookCallsOf, hookEvs] at this ⊢
          simp [happ, List.filterMap_cons, hmk, hookEvProj_warn, List.filter_cons, hsel, this]
        | some v =>
          have := ih (copy v)
          simp only [hookCallsOf, hookEvs] at this ⊢
          simp [happ, List.filterMap_cons, hmk, hookEvProj_warn, List.filter_cons, hsel, this]

theorem runHooks_events_mem {α β : Type} (sel : Plugin → Option β)
    (app : β → α → HookOutcome α) (mkEv : String → α → Ev)
    (warnOf : String → String) (copy : α → α) :
    ∀ (ps : List Plugin) (st : α) (e : Ev),
      e ∈ (runHooks sel app mkEv warnOf copy ps st).2 →
      (∃ n st', e = mkEv n st') ∨ (∃ m, e = Ev.warn m) := by
  intro ps
  induction ps with
  | nil => intro st e he; simp [runHooks] at he
  | cons p ps ih =>
    intro st e he
    simp only [runHooks] at he
    cases hsel : sel p with
    | none =>
      simp only [hsel] at he
      exact ih st e he
    | some hk =>
      simp only [hsel] at he
      cases happ : app hk st with
      | throws =>
        simp only [happ] at he
        simp only [List.mem_cons] at he
        rcases he with h | h | h
        · exact Or.inl ⟨p.pluginName, st, h⟩
        · exact Or.inr ⟨warnOf p.pluginName, h⟩
        · exact ih st e h
      | ret o =>
        cases o with
        | none =>
          simp only [happ] at he
          simp only [List.mem_cons] at he
          rcases he with h | h
          · exact Or.inl ⟨p.pluginName, st, h⟩
          · exact ih st e h
        | some v =>
          simp only [happ] at he
          simp only [List.mem_cons] at he
          rcases he with h | h
          · exact Or.inl ⟨p.pluginName, st, h⟩
          · exact ih (copy v) e h

theorem resolveEvs_eq_nil (tr : List Ev)
    (h : ∀ e ∈ tr, resolveEvProj e = none) : resolveEvs tr = [] :=
  List.filterMap_eq_nil_iff.mpr h

/-! ## Helper lemmas about the parse loops -/

theorem parseCompLoop_ok (env : Env) (s : DefaultSettings)
    (hp : ∀ st d, ∃ st', env.parseComponents st d s = .ok st') :
    ∀ (dirs : List String) (st : State), ∃ st',
      parseCompLoop env s dirs st = (.ok st', dirs.map Ev.parseComponentsCall) := by
  intro dirs
  induction dirs with
  | nil => intro st; exact ⟨st, rfl⟩
  | cons d ds ih =>
    intro st
    obtain ⟨st1, h1⟩ := hp st d
    obtain ⟨st', hrec⟩ := ih st1
    exact ⟨st', by simp [parseCompLoop, h1, hrec]⟩

theorem parsePagesLoop_ok (env : Env)
    (hp : ∀ st d, ∃ st', env.parsePages st d = .ok st') :
    ∀ (dirs : List String) (st : State), ∃ st',
      parsePagesLoop env dirs st = (.ok st', dirs.map Ev.parsePagesCall) := by
  intro dirs
  induction dirs with
  | nil => intro st; exact ⟨st, rfl⟩
  | cons d ds ih =>
    intro st
    obtain ⟨st1, h1⟩ := hp st d
    obtain ⟨st', hrec⟩ := ih st1
    exact ⟨st', by simp [parsePagesLoop, h1, hrec]⟩

theorem parseCompLoop_events_mem (env : Env) (s : DefaultSettings) :
    ∀ (dirs : List String) (st : State) (e : Ev),
      e ∈ (parseCompLoop env s dirs st).2 → ∃ d, e = Ev.parseComponentsCall d := by
  intro dirs
  induction dirs with
  | nil => intro st e he; simp [parseCompLoop] at he
  | cons d ds ih =>
    intro st e he
    simp only [parseCompLoop] at he
    cases hc : env.parseComponents st d s with
    | error msg =>
      rw [hc] at he
      simp at he
      exact ⟨d, he⟩
    | ok st1 =>
      rw [hc] at he
      simp only [List.mem_cons] at he
      rcases he with h | h
      · exact ⟨d, h⟩
      · exact ih st1 e h

theorem parsePagesLoop_events_mem (env : Env) :
    ∀ (dirs : List String) (st : State) (e : Ev),
      e ∈ (parsePagesLoop env dirs st).2 → ∃ d, e = Ev.parsePagesCall d := by
  intro dirs
  induction dirs with
  | nil => intro st e he; simp [parsePagesLoop] at he
  | cons d ds ih =>
    intro st e he
    simp only [parsePagesLoop] at he
    cases hc : env.parsePages st d with
    | error msg =>
      rw [hc] at he
      simp at he
      exact ⟨d, he⟩
    | ok st1 =>
      rw [hc] at he
      simp only [List.mem_cons] at he
      rcases he with h | h
      · exact ⟨d, h⟩
      · exact ih st1 e h

/-! ## Helper lemmas about the resolver loops -/

theorem reResolveComponents_ok (env : Env) (s : DefaultSettings)
    (g : SpearlyJSGenerator) (st : State) :
    ∀ (cs : List Component),
      (∀ c ∈ cs, ∃ n rest,
        env.parseElements st c.node.childNodes g s = .ok (n :: rest)) →
      ∃ comps evs, reResolveComponents env s g st cs = (.ok comps, evs) ∧
        List.Forall₂ (fun c c' =>
          c'.fname = c.fname ∧ c'.tagName = c.tagName ∧ c'.props = [] ∧
          ∃ n rest, env.parseElements st c.node.childNodes g s = .ok (n :: rest) ∧
            c'.node = n ∧ c'.rawData = env.outerHTML n) cs comps ∧
        (resolveEvs evs).map Prod.fst = cs.map (fun c => c.node.childNodes) ∧
        (∀ e ∈ evs, ∃ a b, e = Ev.resolveCall a b) := by
  intro cs
  induction cs with
  | nil =>
    intro _
    exact ⟨[], [], rfl, List.Forall₂.nil, rfl, by simp⟩
  | cons c cs ih =>
    intro hp
    obtain ⟨n, rest, hpe⟩ := hp c (List.mem_cons_self c cs)
    obtain ⟨comps, evs, hrec, hfa, hmap, hall⟩ :=
      ih (fun c' hc' => hp c' (List.mem_cons_of_mem c hc'))
    refine ⟨{ fname := c.fname
              rawData := env.outerHTML n
              tagName := c.tagName
              node := n
              props := [] } :: comps,
      Ev.resolveCall c.node.childNodes (n :: rest) :: evs, ?_, ?_, ?_, ?_⟩
    · simp only [reResolveComponents, hpe, hrec]
    · exact List.Forall₂.cons ⟨rfl, rfl, rfl, n, rest, hpe, rfl, rfl⟩ hfa
    · have := hmap
      simp only [resolveEvs] at this
      simp [resolveEvs, List.filterMap_cons, resolveEvProj, this]
    · intro e he
      simp only [List.mem_cons] at he
      rcases he with h | h
      · exact ⟨c.node.childNodes, n :: rest, h⟩
      · exact hall e h

/-- Exactly two chained resolver calls per item: the trace of
(input, output) pairs decomposes into `n` consecutive blocks of two
pairs in which the second call's input is the first call's output. -/
def chainedTwice : Nat → List (List Element × List Element) → Prop
  | 0, l => l = []
  | n + 1, (_, o1) :: (i2, _) :: rest => i2 = o1 ∧ chainedTwice n rest
  | _ + 1, _ => False

theorem pageResolveLoop_ok (env : Env) (s : DefaultSettings)
    (g : SpearlyJSGenerator)
    (hp : ∀ (st' : State) (ns : List Element), ∃ out,
      env.parseElements st' ns g s = .ok out) :
    ∀ (n i : Nat) (st : State), i + n ≤ st.pagesList.length →
      ∃ st' evs, pageResolveLoop env s g n i st = (.ok st', evs) ∧
        chainedTwice n (resolveEvs evs) ∧
        (∀ e ∈ evs, ∃ a b, e = Ev.resolveCall a b) := by
  intro n
  induction n with
  | zero =>
    intro i st _
    exact ⟨st, [], rfl, rfl, by simp⟩
  | succ n ih =>
    intro i st hlen
    have hi : i < st.pagesList.length := by omega
    have hget : st.pagesList[i]? = some st.pagesList[i] :=
      List.getElem?_eq_getElem hi
    obtain ⟨out1, h1⟩ := hp st st.pagesList[i].node.childNodes
    obtain ⟨out2, h2⟩ := hp { st with pagesList := st.pagesList.set i { st.pagesList[i] with node := st.pagesList[i].node.withChildNodes out1 } } (st.pagesList[i].node.withChildNodes out1).childNodes
    have hlen2 : (i + 1) + n ≤ ((st.pagesList.set i { st.pagesList[i] with node := st.pagesList[i].node.withChildNodes out1 }).set i { st.pagesList[i] with node := (st.pagesList[i].node.withChildNodes out1).withChildNodes out2 }).length := by
      simp only [List.length_set]
      omega
    obtain ⟨st', evs, heq, hch, hall⟩ := ih (i + 1) { st with pagesList := (st.pagesList.set i { st.pagesList[i] with node := st.pagesList[i].node.withChildNodes out1 }).set i { st.pagesList[i] with node := (st.pagesList[i].node.withChildNodes out1).withChildNodes out2 } } hlen2
    refine ⟨st', Ev.resolveCall st.pagesList[i].node.childNodes out1 :: Ev.resolveCall (st.pagesList[i].node.withChildNodes out1).childNodes out2 :: evs, ?_, ?_, ?_⟩
    · simp only [pageResolveLoop, hget, h1, h2, heq]
    · simp only [resolveEvs, List.filterMap_cons, resolveEvProj,
        Element.childNodes_withChildNodes]
      exact ⟨rfl, hch⟩
    · intro e he
      simp only [List.mem_cons] at he
      rcases he with h | h | h
      · exact ⟨_, _, h⟩
      · exact ⟨_, _, h⟩
      · exact hall e h

/-! ## A well-behaved collaborator environment -/

/-- All non-plugin collaborators succeed (and the resolver always
returns a non-empty sequence, so that `parsedNode[0]` exists).  Nothing
is assumed about the plugins or their hooks. -/
structure EnvOk (env : Env) (s : DefaultSettings) : Prop where
  createDir_ok : env.createDir s = .ok ()
  parseComponents_ok : ∀ st d, ∃ st', env.parseComponents st d s = .ok st'
  parsePages_ok : ∀ st d, ∃ st', env.parsePages st d = .ok st'
  parseElements_ok : ∀ st ns g, ∃ n rest,
    env.parseElements st ns g s = .ok (n :: rest)
  aliasPages_ok : ∀ st g, ∃ ps,
    env.generateAliasPagesFromPagesList st g s = .ok ps
  dumpPages_ok : ∀ st d, env.dumpPages st d s = .ok ()

theorem bundle_shape (env : Env) (s : DefaultSettings) (h : EnvOk env s) :
    ∃ st2 st3 comps stQ newPages evC evP,
      parseCompLoop env s s.componentsFolder (beforeBuildStage s).1 =
        (.ok st2, s.componentsFolder.map Ev.parseComponentsCall) ∧
      parsePagesLoop env s.srcDir st2 =
        (.ok st3, s.srcDir.map Ev.parsePagesCall) ∧
      reResolveComponents env s (jsGeneratorOf s) st3 st3.componentsList =
        (.ok comps, evC) ∧
      pageResolveLoop env s (jsGeneratorOf s) st3.pagesList.length 0
        { st3 with componentsList := comps } = (.ok stQ, evP) ∧
      env.generateAliasPagesFromPagesList stQ (jsGeneratorOf s) s = .ok newPages ∧
      (resolveEvs evC).map Prod.fst =
        st3.componentsList.map (fun c => c.node.childNodes) ∧
      chainedTwice st3.pagesList.length (resolveEvs evP) ∧
      (∀ e ∈ evC, ∃ a b, e = Ev.resolveCall a b) ∧
      (∀ e ∈ evP, ∃ a b, e = Ev.resolveCall a b) ∧
      bundle env s = .ret true
        ((beforeBuildStage s).2 ++ [Ev.createDirCall] ++
         s.componentsFolder.map Ev.parseComponentsCall ++
         s.srcDir.map Ev.parsePagesCall ++ evC ++ evP ++ [Ev.aliasCall] ++
         (afterBuildStage s { stQ with pagesList := newPages }).2 ++
         [Ev.dumpCall] ++
         (bundleHooksStage s
           (afterBuildStage s { stQ with pagesList := newPages }).1).2) := by
  obtain ⟨st2, hcomp⟩ :=
    parseCompLoop_ok env s h.parseComponents_ok s.componentsFolder
      (beforeBuildStage s).1
  obtain ⟨st3, hpages⟩ := parsePagesLoop_ok env h.parsePages_ok s.srcDir st2
  obtain ⟨comps, evC, hre, _, hmapC, hallC⟩ :=
    reResolveComponents_ok env s (jsGeneratorOf s) st3 st3.componentsList
      (fun c _ => h.parseElements_ok st3 c.node.childNodes (jsGeneratorOf s))
  have hpe : ∀ (st' : State) (ns : List Element), ∃ out,
      env.parseElements st' ns (jsGeneratorOf s) s = .ok out := by
    intro st' ns
    obtain ⟨n, rest, hn⟩ := h.parseElements_ok st' ns (jsGeneratorOf s)
    exact ⟨n :: rest, hn⟩
  obtain ⟨stQ, evP, hpl, hchain, hallP⟩ :=
    pageResolveLoop_ok env s (jsGeneratorOf s) hpe
      ({ st3 with componentsList := comps }).pagesList.length 0
      { st3 with componentsList := comps } (by omega)
  obtain ⟨newPages, halias⟩ := h.aliasPages_ok stQ (jsGeneratorOf s)
  refine ⟨st2, st3, comps, stQ, newPages, evC, evP,
    hcomp, hpages, hre, hpl, halias, hmapC, hchain, hallC, hallP, ?_⟩
  simp only [bundle, bundleStageCreateDir, h.createDir_ok,
    bundleStageParseComps, hcomp, bundleStageParsePages, hpages,
    bundleStageReResolve, hre, bundleStagePages, hpl, bundleStageAlias,
    halias, bundleStageAfter, bundleStageDump, h.dumpPages_ok,
    bundleStageBundleHooks, BResult.prepend]
  simp [List.append_assoc]

/-! ## A heap-level model of deep-copy-on-replace -/

/-- A flat store of values; a reference is an index into the store.
This models the object identities that the pure embedding erases. -/
structure Heap (α : Type) where
  cells : List α

/-- Read the value behind a reference. -/
def Heap.deref {α : Type} [Inhabited α] (h : Heap α) (r : Nat) : α :=
  h.cells.getD r default

/-- Mutate the value behind a reference in place, as a plugin can do
with a reference it retained. -/
def Heap.mutate {α : Type} [Inhabited α] (h : Heap α) (r : Nat) (f : α → α) :
    Heap α :=
  ⟨h.cells.set r (f (h.deref r))⟩

/-- Modelled from the spec: `stateDeepCopy` / `defaultSettingDeepCopy`
(`utils/util.js`, not under `src/`) return a deep structural copy of
their argument, sharing no mutable location with it; at heap level a
copy is a fresh cell holding the same value. -/
def deepCopyAlloc {α : Type} [Inhabited α] (h : Heap α) (r : Nat) :
    Heap α × Nat :=
  (⟨h.cells ++ [h.deref r]⟩, h.cells.length)

/-- Heap-level model of one hook-replacement step (`magic.ts` lines
70-73, 133-136, 152-155, 193-196): a raising hook or a hook returning
nothing leaves the pipeline's reference and the heap unchanged; a hook
returning a reference makes the pipeline adopt a deep copy of the
returned value. -/
def hookStepH {α : Type} [Inhabited α] (h : Heap α) (cur : Nat)
    (o : HookOutcome Nat) : Heap α × Nat :=
  match o with
  | .throws => (h, cur)
  | .ret none => (h, cur)
  | .ret (some r) => deepCopyAlloc h r

/-! ## Concrete fixtures used by witnesses and counterexamples -/

/-- A one-node markup fragment used by the concrete environment. -/
def elDiv : Element := Element.mk "div" []

/-- A concrete component added by the concrete `parseComponents`. -/
def compA : Component :=
  { fname := "c.spear", tagName := "c-box", rawData := "", node := elDiv,
    props := [] }

/-- A concrete page added by the concrete `parsePages`. -/
def pageA : Page := { fname := "index.html", node := Element.mk "body" [] }

/-- A concrete collaborator environment in which every operation
succeeds: parsing appends one component / page, the resolver prepends a
`div` node (hence always returns a non-empty list). -/
def envAllOk : Env :=
  { loadFile := none
    confHookImpl := fun _ _ => .ret none
    createDir := fun _ => .ok ()
    parseComponents := fun st _ _ =>
      .ok { st with componentsList := st.componentsList ++ [compA] }
    parsePages := fun st _ =>
      .ok { st with pagesList := st.pagesList ++ [pageA] }
    parseElements := fun _ ns _ _ => .ok (elDiv :: ns)
    generateAliasPagesFromPagesList := fun st _ _ => .ok st.pagesList
    dumpPages := fun _ _ _ => .ok ()
    outerHTML := fun _ => "<div></div>" }

theorem envAllOk_envOk (s : DefaultSettings) : EnvOk envAllOk s :=
  ⟨rfl,
   fun st d => ⟨{ st with componentsList := st.componentsList ++ [compA] }, rfl⟩,
   fun st d => ⟨{ st with pagesList := st.pagesList ++ [pageA] }, rfl⟩,
   fun st ns g => ⟨elDiv, ns, rfl⟩,
   fun st g => ⟨st.pagesList, rfl⟩,
   fun st d => rfl⟩

/-- A plugin whose `beforeBuild` hook always raises. -/
def pluginBoom : Plugin :=
  { pluginName := "boom"
    beforeBuild := some fun _ => HookOutcome.throws }

/-- A plugin whose `beforeBuild` hook returns a replacement state. -/
def pluginKeep : Plugin :=
  { pluginName := "keep"
    beforeBuild := some fun st => HookOutcome.ret (some st) }

/-- Settings with a raising plugin followed by a working one. -/
def sWitness : DefaultSettings :=
  { defaultSettingsOf "/proj" with plugins := [pluginBoom, pluginKeep] }

/-! ## Small trace lemmas -/

theorem resolveEvProj_hookCall (k : HookKind) (n : String) (st : State) :
    resolveEvProj (Ev.hookCall k n st) = none := rfl

theorem resolveEvs_hookStage {β : Type} (sel : Plugin → Option β)
    (app : β → State → HookOutcome State) (k : HookKind)
    (warnOf : String → String) (copy : State → State)
    (ps : List Plugin) (st : State) :
    resolveEvs (runHooks sel app (Ev.hookCall k) warnOf copy ps st).2 = [] := by
  apply resolveEvs_eq_nil
  intro e he
  rcases runHooks_events_mem sel app (Ev.hookCall k) warnOf copy ps st e he with
    ⟨n, st', rfl⟩ | ⟨m, rfl⟩
  · rfl
  · rfl

theorem resolveEvs_parseCompCalls (dirs : List String) :
    resolveEvs (dirs.map Ev.parseComponentsCall) = [] := by
  apply resolveEvs_eq_nil
  intro e he
  obtain ⟨d, _, rfl⟩ := List.mem_map.mp he
  rfl

theorem resolveEvs_parsePagesCalls (dirs : List String) :
    resolveEvs (dirs.map Ev.parsePagesCall) = [] := by
  apply resolveEvs_eq_nil
  intro e he
  obtain ⟨d, _, rfl⟩ := List.mem_map.mp he
  rfl

theorem runHooks_trace_head {α β : Type} (sel : Plugin → Option β)
    (app : β → α → HookOutcome α) (mkEv : String → α → Ev)
    (warnOf : String → String) (copy : α → α) (p : Plugin)
    (ps : List Plugin) (st : α) (hk : β) (hsel : sel p = some hk) :
    ∃ rest, (runHooks sel app mkEv warnOf copy (p :: ps) st).2 =
      mkEv p.pluginName st :: rest := by
  simp only [runHooks, hsel]
  cases happ : app hk st with
  | throws => exact ⟨_, rfl⟩
  | ret o =>
    cases o with
    | none => exact ⟨_, rfl⟩
    | some v => exact ⟨_, rfl⟩

/-! ## Claim theorems -/

/-- C1, counterexample: on the spec's own example input the dedup filter
does not return the list the claim demands (it keeps `/a/b` and drops
`/a/components/sub`). -/
theorem c1_counterexample :
    dedupSrcDir ["/a", "/a/b", "/a/components", "/a/components/sub"] ≠
      ["/a", "/a/components", "/a/components/sub"] := by
  decide

/-- C1 (amended): `loadSettings` removes exactly those entries `A` for
which a distinct entry `B` exists such that `A` starts with `B` and `B`
DOES end with the components-directory suffix; entries nested under a
non-components directory are kept, and an entry is never redundant with
itself.  For `srcDir = ["/a", "/a/b", "/a/components",
"/a/components/sub"]` the result is `["/a", "/a/b", "/a/components"]`. -/
theorem c1_settings_dedup :
    (∀ (l : List String) (a : String), a ∈ l →
      (a ∈ dedupSrcDir l ↔
        ¬ ∃ b, b ∈ l ∧ a ≠ b ∧ jsEndsWith b "components" = true ∧
          jsStartsWith a b = true)) ∧
    dedupSrcDir ["/a", "/a/b", "/a/components", "/a/components/sub"] =
      ["/a", "/a/b", "/a/components"] := by
  constructor
  · intro l a ha
    rw [mem_dedupSrcDir]
    simp [ha]
  · decide

/-- C1, witness: the amended characterization evaluated on the spec's
example list at the dropped entry `/a/components/sub`. -/
theorem c1_settings_dedup_witness :
    ("/a/components/sub" ∈
        (["/a", "/a/b", "/a/components", "/a/components/sub"] : List String)) ∧
    ("/a/components/sub" ∈
        dedupSrcDir ["/a", "/a/b", "/a/components", "/a/components/sub"] ↔
      ¬ ∃ b, b ∈ (["/a", "/a/b", "/a/components", "/a/components/sub"] : List String) ∧
        "/a/components/sub" ≠ b ∧ jsEndsWith b "components" = true ∧
        jsStartsWith "/a/components/sub" b = true) :=
  ⟨by decide,
   c1_settings_dedup.1 ["/a", "/a/b", "/a/components", "/a/components/sub"]
     "/a/components/sub" (by decide)⟩

/-- C10: under the precondition that every component's resolved child
sequence is non-empty, the component re-resolution loop rebuilds
`componentsList` with the same length and order, each entry keeping its
`fname` and `tagName`, its `props` reset to the empty mapping, and its
`node` and `rawData` taken from only the first resolved node — any
further top-level resolved nodes are discarded. -/
theorem c10_reresolution_first_node_only :
    ∀ (env : Env) (s : DefaultSettings) (g : SpearlyJSGenerator) (st : State)
      (cs : List Component),
      (∀ c ∈ cs, ∃ n rest,
        env.parseElements st c.node.childNodes g s = .ok (n :: rest)) →
      ∃ comps evs, reResolveComponents env s g st cs = (.ok comps, evs) ∧
        comps.length = cs.length ∧
        List.Forall₂ (fun c c' =>
          c'.fname = c.fname ∧ c'.tagName = c.tagName ∧ c'.props = [] ∧
          ∃ n rest, env.parseElements st c.node.childNodes g s = .ok (n :: rest) ∧
            c'.node = n ∧ c'.rawData = env.outerHTML n) cs comps := by
  intro env s g st cs hp
  obtain ⟨comps, evs, heq, hfa, _, _⟩ := reResolveComponents_ok env s g st cs hp
  exact ⟨comps, evs, heq, (List.Forall₂.length_eq hfa).symm, hfa⟩

/-- C10, witness: the re-resolution loop evaluated on a one-component
list in the all-succeeding concrete environment. -/
theorem c10_reresolution_first_node_only_witness :
    ∃ comps evs,
      reResolveComponents envAllOk (defaultSettingsOf "/proj")
        (jsGeneratorOf (defaultSettingsOf "/proj")) emptyState [compA] =
        (.ok comps, evs) ∧
      comps.length = [compA].length ∧
      List.Forall₂ (fun c c' =>
        c'.fname = c.fname ∧ c'.tagName = c.tagName ∧ c'.props = [] ∧
        ∃ n rest, envAllOk.parseElements emptyState c.node.childNodes
            (jsGeneratorOf (defaultSettingsOf "/proj"))
            (defaultSettingsOf "/proj") = .ok (n :: rest) ∧
          c'.node = n ∧ c'.rawData = envAllOk.outerHTML n) [compA] comps :=
  c10_reresolution_first_node_only envAllOk (defaultSettingsOf "/proj")
    (jsGeneratorOf (defaultSettingsOf "/proj")) emptyState [compA]
    (fun c _ => ⟨elDiv, c.node.childNodes, rfl⟩)

/-- C5: hook return replacement.  At heap level, a hook returning a
reference makes the pipeline adopt a deep copy holding the same value,
and mutating the plugin's retained reference afterwards leaves the
pipeline's value untouched; a raising hook or one returning nothing
leaves reference and heap unchanged.  In the pure pipeline, `runHooks`
continues from `copy v` when a hook returns `v` and from the unchanged
state when it returns nothing. -/
theorem c5_hook_return_replacement :
    (∀ (α : Type) (inst : Inhabited α) (h : Heap α) (cur r : Nat),
      r < h.cells.length →
      ((hookStepH h cur (.ret (some r))).1.deref
          (hookStepH h cur (.ret (some r))).2 = h.deref r ∧
       ∀ f, ((hookStepH h cur (.ret (some r))).1.mutate r f).deref
           (hookStepH h cur (.ret (some r))).2 =
         (hookStepH h cur (.ret (some r))).1.deref
           (hookStepH h cur (.ret (some r))).2)) ∧
    (∀ (α : Type) (inst : Inhabited α) (h : Heap α) (cur : Nat),
      hookStepH h cur (.ret none) = (h, cur) ∧
      hookStepH (α := α) h cur .throws = (h, cur)) ∧
    (∀ (α β : Type) (sel : Plugin → Option β) (app : β → α → HookOutcome α)
       (mkEv : String → α → Ev) (warnOf : String → String) (copy : α → α)
       (p : Plugin) (ps : List Plugin) (st : α) (hk : β) (v : α),
      sel p = some hk → app hk st = .ret (some v) →
      runHooks sel app mkEv warnOf copy (p :: ps) st =
        ((runHooks sel app mkEv warnOf copy ps (copy v)).1,
         mkEv p.pluginName st ::
           (runHooks sel app mkEv warnOf copy ps (copy v)).2)) ∧
    (∀ (α β : Type) (sel : Plugin → Option β) (app : β → α → HookOutcome α)
       (mkEv : String → α → Ev) (warnOf : String → String) (copy : α → α)
       (p : Plugin) (ps : List Plugin) (st : α) (hk : β),
      sel p = some hk → app hk st = .ret none →
      runHooks sel app mkEv warnOf copy (p :: ps) st =
        ((runHooks sel app mkEv warnOf copy ps st).1,
         mkEv p.pluginName st :: (runHooks sel app mkEv warnOf copy ps st).2)) := by
  refine ⟨?_, ?_, ?_, ?_⟩
  · intro α inst h cur r hr
    constructor
    · simp [hookStepH, deepCopyAlloc, Heap.deref, List.getD_eq_getElem?_getD,
        List.getElem?_append_right]
    · intro f
      simp only [hookStepH, deepCopyAlloc, Heap.mutate, Heap.deref,
        List.getD_eq_getElem?_getD]
      rw [List.getElem?_set_ne (by omega)]
  · intro α inst h cur
    exact ⟨rfl, rfl⟩
  · intro α β sel app mkEv warnOf copy p ps st hk v hsel happ
    simp only [runHooks, hsel, happ]
  · intro α β sel app mkEv warnOf copy p ps st hk hsel happ
    simp only [runHooks, hsel, happ]

/-- C5, witness: the heap-level replacement step on a concrete
two-cell heap, and the pure replacement step on a concrete plugin. -/
theorem c5_hook_return_replacement_witness :
    ((hookStepH (⟨[5, 7]⟩ : Heap Nat) 0 (.ret (some 1))).1.deref
        (hookStepH (⟨[5, 7]⟩ : Heap Nat) 0 (.ret (some 1))).2 =
      (⟨[5, 7]⟩ : Heap Nat).deref 1 ∧
     ∀ f, ((hookStepH (⟨[5, 7]⟩ : Heap Nat) 0 (.ret (some 1))).1.mutate 1 f).deref
         (hookStepH (⟨[5, 7]⟩ : Heap Nat) 0 (.ret (some 1))).2 =
       (hookStepH (⟨[5, 7]⟩ : Heap Nat) 0 (.ret (some 1))).1.deref
         (hookStepH (⟨[5, 7]⟩ : Heap Nat) 0 (.ret (some 1))).2) ∧
    runHooks Plugin.beforeBuild (fun f => f) (Ev.hookCall .beforeBuild)
        beforeBuildWarn stateDeepCopy (pluginKeep :: []) emptyState =
      ((runHooks Plugin.beforeBuild (fun f => f) (Ev.hookCall .beforeBuild)
          beforeBuildWarn stateDeepCopy [] (stateDeepCopy emptyState)).1,
       Ev.hookCall .beforeBuild pluginKeep.pluginName emptyState ::
         (runHooks Plugin.beforeBuild (fun f => f) (Ev.hookCall .beforeBuild)
           beforeBuildWarn stateDeepCopy [] (stateDeepCopy emptyState)).2) :=
  ⟨c5_hook_return_replacement.1 Nat inferInstance ⟨[5, 7]⟩ 0 1 (by decide),
   c5_hook_return_replacement.2.2.1 State (State → HookOutcome State)
     Plugin.beforeBuild (fun f => f) (Ev.hookCall .beforeBuild)
     beforeBuildWarn stateDeepCopy pluginKeep [] emptyState
     (fun st => HookOutcome.ret (some st)) emptyState rfl rfl⟩

/-! ## Late-event machinery for C3 -/

/-- No event of the trace is an `afterBuild` or `bundle` hook
invocation, a resolver call, alias generation or a page dump. -/
def noLateEvents (tr : List Ev) : Prop :=
  ∀ ev ∈ tr, evLabel ev ≠ EvLabel.dumpL ∧ evLabel ev ≠ EvLabel.resolveL ∧
    evLabel ev ≠ EvLabel.aliasL ∧
    ∀ n, evLabel ev ≠ EvLabel.hookL HookKind.afterBuild n ∧
      evLabel ev ≠ EvLabel.hookL HookKind.bundleHook n

theorem noLateEvents_append {t₁ t₂ : List Ev}
    (h₁ : noLateEvents t₁) (h₂ : noLateEvents t₂) : noLateEvents (t₁ ++ t₂) := by
  intro ev hev
  rcases List.mem_append.mp hev with h | h
  · exact h₁ ev h
  · exact h₂ ev h

theorem noLateEvents_beforeStage (s : DefaultSettings) :
    noLateEvents (beforeBuildStage s).2 := by
  intro ev hev
  rcases runHooks_events_mem Plugin.beforeBuild (fun f => f)
      (Ev.hookCall .beforeBuild) beforeBuildWarn stateDeepCopy s.plugins
      emptyState ev hev with ⟨n, st', rfl⟩ | ⟨m, rfl⟩
  · exact ⟨by simp [evLabel], by simp [evLabel], by simp [evLabel],
      fun n' => ⟨by simp [evLabel], by simp [evLabel]⟩⟩
  · exact ⟨by simp [evLabel], by simp [evLabel], by simp [evLabel],
      fun n' => ⟨by simp [evLabel], by simp [evLabel]⟩⟩

theorem noLateEvents_compEvs (env : Env) (s : DefaultSettings)
    (dirs : List String) (st : State) :
    noLateEvents (parseCompLoop env s dirs st).2 := by
  intro ev hev
  obtain ⟨d, rfl⟩ := parseCompLoop_events_mem env s dirs st ev hev
  exact ⟨by simp [evLabel], by simp [evLabel], by simp [evLabel],
    fun n' => ⟨by simp [evLabel], by simp [evLabel]⟩⟩

theorem noLateEvents_pagesEvs (env : Env) (dirs : List String) (st : State) :
    noLateEvents (parsePagesLoop env dirs st).2 := by
  intro ev hev
  obtain ⟨d, rfl⟩ := parsePagesLoop_events_mem env dirs st ev hev
  exact ⟨by simp [evLabel], by simp [evLabel], by simp [evLabel],
    fun n' => ⟨by simp [evLabel], by simp [evLabel]⟩⟩

theorem noLateEvents_createDir : noLateEvents [Ev.createDirCall] := by
  intro ev hev
  simp only [List.mem_singleton] at hev
  subst hev
  exact ⟨by simp [evLabel], by simp [evLabel], by simp [evLabel],
    fun n' => ⟨by simp [evLabel], by simp [evLabel]⟩⟩

theorem noLateEvents_logError (e : String) :
    noLateEvents [Ev.logError e] := by
  intro ev hev
  simp only [List.mem_singleton] at hev
  subst hev
  exact ⟨by simp [evLabel], by simp [evLabel], by simp [evLabel],
    fun n' => ⟨by simp [evLabel], by simp [evLabel]⟩⟩

/-! ## C2, C3, C6, C9 -/

/-- C2: plugin failure isolation.  At any checkpoint loop, when the
plugin at any position raises, the loop logs a warning built from that
plugin's name, continues with the state unchanged, and still invokes
every subsequent plugin's present hook on that state; the four warning
texts all embed the plugin name; and with all non-plugin collaborators
succeeding, `bundle()` still returns `true`, whatever the plugins do. -/
theorem c2_plugin_failure_isolation :
    (∀ (α β : Type) (sel : Plugin → Option β) (app : β → α → HookOutcome α)
       (mkEv : String → α → Ev) (warnOf : String → String) (copy : α → α)
       (ps₁ ps₂ : List Plugin) (p : Plugin) (st : α) (hk : β),
      sel p = some hk →
      app hk (runHooks sel app mkEv warnOf copy ps₁ st).1 = .throws →
      runHooks sel app mkEv warnOf copy (ps₁ ++ p :: ps₂) st =
        ((runHooks sel app mkEv warnOf copy ps₂
            (runHooks sel app mkEv warnOf copy ps₁ st).1).1,
         (runHooks sel app mkEv warnOf copy ps₁ st).2 ++
           mkEv p.pluginName (runHooks sel app mkEv warnOf copy ps₁ st).1 ::
           Ev.warn (warnOf p.pluginName) ::
           (runHooks sel app mkEv warnOf copy ps₂
             (runHooks sel app mkEv warnOf copy ps₁ st).1).2)) ∧
    (∀ n, beforeBuildWarn n = " plugin process failed. [" ++ n ++ "]" ∧
      afterBuildWarn n = " plugin process failed. [" ++ n ++ "]" ∧
      bundleHookWarn n = " plugin process failed. " ++ n ++ "\x7d" ∧
      configurationWarn n = " plugin process failed. " ++ n ++ "\x7d\x7d") ∧
    (∀ (env : Env) (s : DefaultSettings), EnvOk env s →
      ∃ tr, bundle env s = .ret true tr) := by
  refine ⟨?_, ?_, ?_⟩
  · intro α β sel app mkEv warnOf copy ps₁ ps₂ p st hk hsel happ
    rw [runHooks_append]
    simp only [runHooks, hsel, happ]
  · intro n
    exact ⟨rfl, rfl, rfl, rfl⟩
  · intro env s h
    obtain ⟨_, _, _, _, _, _, _, _, _, _, _, _, _, _, _, _, hb⟩ :=
      bundle_shape env s h
    exact ⟨_, hb⟩

/-- C2, witness: a raising plugin at the head of a two-plugin list, and
a full `bundle()` run returning `true` in the all-succeeding
environment with a raising plugin configured. -/
theorem c2_plugin_failure_isolation_witness :
    (runHooks Plugin.beforeBuild (fun f => f) (Ev.hookCall .beforeBuild)
        beforeBuildWarn stateDeepCopy ([] ++ pluginBoom :: [pluginKeep])
        emptyState =
      ((runHooks Plugin.beforeBuild (fun f => f) (Ev.hookCall .beforeBuild)
          beforeBuildWarn stateDeepCopy [pluginKeep]
          (runHooks Plugin.beforeBuild (fun f => f) (Ev.hookCall .beforeBuild)
            beforeBuildWarn stateDeepCopy [] emptyState).1).1,
       (runHooks Plugin.beforeBuild (fun f => f) (Ev.hookCall .beforeBuild)
          beforeBuildWarn stateDeepCopy [] emptyState).2 ++
         Ev.hookCall .beforeBuild pluginBoom.pluginName
           (runHooks Plugin.beforeBuild (fun f => f) (Ev.hookCall .beforeBuild)
             beforeBuildWarn stateDeepCopy [] emptyState).1 ::
         Ev.warn (beforeBuildWarn pluginBoom.pluginName) ::
         (runHooks Plugin.beforeBuild (fun f => f) (Ev.hookCall .beforeBuild)
           beforeBuildWarn stateDeepCopy [pluginKeep]
           (runHooks Plugin.beforeBuild (fun f => f) (Ev.hookCall .beforeBuild)
             beforeBuildWarn stateDeepCopy [] emptyState).1).2)) ∧
    (∃ tr, bundle envAllOk sWitness = .ret true tr) :=
  ⟨c2_plugin_failure_isolation.1 State (State → HookOutcome State)
     Plugin.beforeBuild (fun f => f) (Ev.hookCall .beforeBuild)
     beforeBuildWarn stateDeepCopy [] [pluginKeep] pluginBoom emptyState
     (fun _ => HookOutcome.throws) rfl rfl,
   c2_plugin_failure_isolation.2.2 envAllOk sWitness (envAllOk_envOk sWitness)⟩

/-- C3: fatal parse propagation.  When directory creation succeeded and
the component-directory parse loop (or, after it succeeds, the
source-directory parse loop) raises, `bundle()` logs the error via
`logger.error` and returns `false`, and its trace contains no
`afterBuild` hook, no page dump, no `bundle` hook (and no resolver or
alias-generation call either). -/
theorem c3_fatal_parse_propagation :
    ∀ (env : Env) (s : DefaultSettings),
      env.createDir s = .ok () →
      ((∀ e evs,
        parseCompLoop env s s.componentsFolder (beforeBuildStage s).1 =
          (.error e, evs) →
        bundle env s = .ret false
          ((beforeBuildStage s).2 ++ [Ev.createDirCall] ++ evs ++
            [Ev.logError e]) ∧
        Ev.logError e ∈ (bundle env s).trace ∧
        noLateEvents (bundle env s).trace) ∧
      (∀ st2 evs2 e evs,
        parseCompLoop env s s.componentsFolder (beforeBuildStage s).1 =
          (.ok st2, evs2) →
        parsePagesLoop env s.srcDir st2 = (.error e, evs) →
        bundle env s = .ret false
          ((beforeBuildStage s).2 ++ [Ev.createDirCall] ++ evs2 ++ evs ++
            [Ev.logError e]) ∧
        Ev.logError e ∈ (bundle env s).trace ∧
        noLateEvents (bundle env s).trace)) := by
  intro env s hcd
  constructor
  · intro e evs hloop
    have hb : bundle env s = .ret false
        ((beforeBuildStage s).2 ++ [Ev.createDirCall] ++ evs ++
          [Ev.logError e]) := by
      simp only [bundle, bundleStageCreateDir, hcd, bundleStageParseComps,
        hloop, BResult.prepend]
      simp [List.append_assoc]
    refine ⟨hb, ?_, ?_⟩
    · rw [hb]
      simp [BResult.trace]
    · rw [hb]
      show noLateEvents _
      simp only [BResult.trace]
      refine noLateEvents_append (noLateEvents_append (noLateEvents_append
        (noLateEvents_beforeStage s) noLateEvents_createDir) ?_)
        (noLateEvents_logError e)
      have := noLateEvents_compEvs env s s.componentsFolder (beforeBuildStage s).1
      rw [hloop] at this
      exact this
  · intro st2 evs2 e evs hloop hloop2
    have hb : bundle env s = .ret false
        ((beforeBuildStage s).2 ++ [Ev.createDirCall] ++ evs2 ++ evs ++
          [Ev.logError e]) := by
      simp only [bundle, bundleStageCreateDir, hcd, bundleStageParseComps,
        hloop, bundleStageParsePages, hloop2, BResult.prepend]
      simp [List.append_assoc]
    refine ⟨hb, ?_, ?_⟩
    · rw [hb]
      simp [BResult.trace]
    · rw [hb]
      show noLateEvents _
      simp only [BResult.trace]
      refine noLateEvents_append (noLateEvents_append (noLateEvents_append
        (noLateEvents_append (noLateEvents_beforeStage s)
          noLateEvents_createDir) ?_) ?_) (noLateEvents_logError e)
      · have := noLateEvents_compEvs env s s.componentsFolder
          (beforeBuildStage s).1
        rw [hloop] at this
        exact this
      · have := noLateEvents_pagesEvs env s.srcDir st2
        rw [hloop2] at this
        exact this

/-- A concrete environment whose component-directory parse always
raises; everything else succeeds. -/
def envCompFail : Env :=
  { envAllOk with parseComponents := fun _ _ _ => .error "EISDIR: parse failed" }

/-- C3, witness: the component-parse failure evaluated in a concrete
environment. -/
theorem c3_fatal_parse_propagation_witness :
    (envCompFail.createDir (defaultSettingsOf "/proj") = .ok ()) ∧
    (parseCompLoop envCompFail (defaultSettingsOf "/proj")
        (defaultSettingsOf "/proj").componentsFolder
        (beforeBuildStage (defaultSettingsOf "/proj")).1 =
      (.error "EISDIR: parse failed",
       [Ev.parseComponentsCall "/proj/src/components"])) ∧
    (bundle envCompFail (defaultSettingsOf "/proj") = .ret false
      ((beforeBuildStage (defaultSettingsOf "/proj")).2 ++ [Ev.createDirCall] ++
        [Ev.parseComponentsCall "/proj/src/components"] ++
        [Ev.logError "EISDIR: parse failed"]) ∧
     Ev.logError "EISDIR: parse failed" ∈
       (bundle envCompFail (defaultSettingsOf "/proj")).trace ∧
     noLateEvents (bundle envCompFail (defaultSettingsOf "/proj")).trace) :=
  ⟨rfl, rfl,
   (c3_fatal_parse_propagation envCompFail (defaultSettingsOf "/proj") rfl).1
     "EISDIR: parse failed" [Ev.parseComponentsCall "/proj/src/components"] rfl⟩

/-- A concrete environment in which both parses succeed but the page
dump raises. -/
def envDumpFail : Env :=
  { envAllOk with dumpPages := fun _ _ _ => .error "dump failed" }

/-- C6, counterexample: both parse loops succeed, yet `bundle()` does
not run to completion returning `true` — the unguarded `dumpPages`
raise escapes `bundle()` as an exception. -/
theorem c6_counterexample :
    bundle envDumpFail (defaultSettingsOf "/proj") =
      .exn "dump failed"
        [Ev.createDirCall, Ev.parseComponentsCall "/proj/src/components",
         Ev.parsePagesCall "/proj/src", Ev.resolveCall [] [elDiv],
         Ev.resolveCall [] [elDiv], Ev.resolveCall [elDiv] [elDiv, elDiv],
         Ev.aliasCall, Ev.dumpCall] := by
  rfl

/-- C6 (amended): when component parsing and page parsing succeed AND
the other non-plugin collaborators (directory creation, resolver calls
with non-empty results, alias generation, page dumping) do not raise,
`bundle()` runs to completion and returns `true` regardless of
plugin-hook failures; an unguarded collaborator raise, however, escapes
`bundle()` as an exception. -/
theorem c6_parse_success_returns_true :
    ∀ (env : Env) (s : DefaultSettings), EnvOk env s →
      ∃ tr, bundle env s = .ret true tr := by
  intro env s h
  obtain ⟨_, _, _, _, _, _, _, _, _, _, _, _, _, _, _, _, hb⟩ :=
    bundle_shape env s h
  exact ⟨_, hb⟩

/-- C6, witness: the all-succeeding environment with a raising plugin
in the settings. -/
theorem c6_parse_success_returns_true_witness :
    ∃ tr, bundle envAllOk sWitness = .ret true tr :=
  c6_parse_success_returns_true envAllOk sWitness (envAllOk_envOk sWitness)

theorem bundle_trace_head (env : Env) (s : DefaultSettings) (p : Plugin)
    (ps : List Plugin) (hk : State → HookOutcome State)
    (hps : s.plugins = p :: ps) (hsel : p.beforeBuild = some hk) :
    ∃ tr', (bundle env s).trace =
      Ev.hookCall .beforeBuild p.pluginName emptyState :: tr' := by
  obtain ⟨rest, hhead⟩ := runHooks_trace_head Plugin.beforeBuild (fun f => f)
    (Ev.hookCall .beforeBuild) beforeBuildWarn stateDeepCopy p ps emptyState
    hk hsel
  have hsplit : (bundle env s).trace = (beforeBuildStage s).2 ++
      (bundleStageCreateDir env s (jsGeneratorOf s) (beforeBuildStage s).1).trace := by
    simp [bundle]
  have hstage : (beforeBuildStage s).2 =
      Ev.hookCall .beforeBuild p.pluginName emptyState :: rest := by
    rw [beforeBuildStage, hps]
    exact hhead
  exact ⟨rest ++ (bundleStageCreateDir env s (jsGeneratorOf s)
      (beforeBuildStage s).1).trace,
    by rw [hsplit, hstage, List.cons_append]⟩

/-- C9: fresh state per pass.  The state constructed at the start of
`bundle()` has empty `pagesList`, `componentsList`, `globalProps` and
`out.assetsFiles`; whenever the first declared plugin has a
`beforeBuild` hook, that hook is invoked on exactly this empty state;
and a watch-mode re-trigger first reloads the settings and then runs
`bundle()` whose first `beforeBuild` hook again receives the empty
state — no state of a previous pass is passed along. -/
theorem c9_fresh_state_per_pass :
    (emptyState.pagesList = [] ∧ emptyState.componentsList = [] ∧
     emptyState.globalProps = [] ∧ emptyState.out.assetsFiles = []) ∧
    (∀ (env : Env) (s : DefaultSettings) (p : Plugin) (ps : List Plugin)
       (hk : State → HookOutcome State),
      s.plugins = p :: ps → p.beforeBuild = some hk →
      ∃ tr', (bundle env s).trace =
        Ev.hookCall .beforeBuild p.pluginName emptyState :: tr') ∧
    (∀ (env : Env) (s : DefaultSettings) (p : Plugin) (ps : List Plugin)
       (hk : State → HookOutcome State),
      (loadSettings env s).1.plugins = p :: ps → p.beforeBuild = some hk →
      ∃ tr', ((watchRetrigger env s).2).trace =
        (loadSettings env s).2 ++
          Ev.hookCall .beforeBuild p.pluginName emptyState :: tr') := by
  refine ⟨⟨rfl, rfl, rfl, rfl⟩, ?_, ?_⟩
  · intro env s p ps hk hps hsel
    exact bundle_trace_head env s p ps hk hps hsel
  · intro env s p ps hk hps hsel
    obtain ⟨tr', htr⟩ := bundle_trace_head env (loadSettings env s).1 p ps hk
      hps hsel
    refine ⟨tr', ?_⟩
    simp only [watchRetrigger, BResult.trace_prepend]
    rw [htr]

/-- C9, witness: a concrete build and a concrete watch re-trigger whose
first `beforeBuild` hook receives the empty state. -/
theorem c9_fresh_state_per_pass_witness :
    (∃ tr', (bundle envAllOk sWitness).trace =
      Ev.hookCall .beforeBuild pluginBoom.pluginName emptyState :: tr') ∧
    (∃ tr', ((watchRetrigger envAllOk sWitness).2).trace =
      (loadSettings envAllOk sWitness).2 ++
        Ev.hookCall .beforeBuild pluginBoom.pluginName emptyState :: tr') :=
  ⟨c9_fresh_state_per_pass.2.1 envAllOk sWitness pluginBoom [pluginKeep]
     (fun _ => HookOutcome.throws) rfl rfl,
   c9_fresh_state_per_pass.2.2 envAllOk sWitness pluginBoom [pluginKeep]
     (fun _ => HookOutcome.throws) rfl rfl⟩

/-! ## C4, C7, C8 -/

/-- C4: two-pass resolution.  In a completing pass, after parsing, the
component re-resolution loop applies the resolver exactly once per
component (in order, to that component's own children), then the page
loop applies the resolver exactly twice per page with the first
application's output fed as the second's input, and the pass performs
no resolver call besides these. -/
theorem c4_two_pass_resolution :
    ∀ (env : Env) (s : DefaultSettings), EnvOk env s →
      ∃ st2 st3 comps stQ evC evP tr,
        parseCompLoop env s s.componentsFolder (beforeBuildStage s).1 =
          (.ok st2, s.componentsFolder.map Ev.parseComponentsCall) ∧
        parsePagesLoop env s.srcDir st2 =
          (.ok st3, s.srcDir.map Ev.parsePagesCall) ∧
        reResolveComponents env s (jsGeneratorOf s) st3 st3.componentsList =
          (.ok comps, evC) ∧
        pageResolveLoop env s (jsGeneratorOf s) st3.pagesList.length 0
          { st3 with componentsList := comps } = (.ok stQ, evP) ∧
        bundle env s = .ret true tr ∧
        resolveEvs tr = resolveEvs evC ++ resolveEvs evP ∧
        (resolveEvs evC).map Prod.fst =
          st3.componentsList.map (fun c => c.node.childNodes) ∧
        chainedTwice st3.pagesList.length (resolveEvs evP) := by
  intro env s h
  obtain ⟨st2, st3, comps, stQ, newPages, evC, evP, hcomp, hpages, hre, hpl,
    halias, hmapC, hchain, hallC, hallP, hb⟩ := bundle_shape env s h
  refine ⟨st2, st3, comps, stQ, evC, evP, _, hcomp, hpages, hre, hpl, hb,
    ?_, hmapC, hchain⟩
  have hA : resolveEvs (beforeBuildStage s).2 = [] := by
    simp only [beforeBuildStage]
    exact resolveEvs_hookStage _ _ _ _ _ _ _
  have hF : resolveEvs
      (afterBuildStage s { stQ with pagesList := newPages }).2 = [] := by
    simp only [afterBuildStage]
    exact resolveEvs_hookStage _ _ _ _ _ _ _
  have hH : resolveEvs (bundleHooksStage s
      (afterBuildStage s { stQ with pagesList := newPages }).1).2 = [] := by
    simp only [bundleHooksStage]
    exact resolveEvs_hookStage _ _ _ _ _ _ _
  have hP1 : resolveEvs (s.componentsFolder.map Ev.parseComponentsCall) = [] :=
    resolveEvs_parseCompCalls s.componentsFolder
  have hP2 : resolveEvs (s.srcDir.map Ev.parsePagesCall) = [] :=
    resolveEvs_parsePagesCalls s.srcDir
  simp only [resolveEvs] at hA hF hH hP1 hP2 ⊢
  simp [List.filterMap_append, List.filterMap_cons, resolveEvProj,
    hA, hF, hH, hP1, hP2]

/-- C4, witness: the two-pass property evaluated in the all-succeeding
concrete environment with the default settings. -/
theorem c4_two_pass_resolution_witness :
    ∃ st2 st3 comps stQ evC evP tr,
      parseCompLoop envAllOk (defaultSettingsOf "/proj")
        (defaultSettingsOf "/proj").componentsFolder
        (beforeBuildStage (defaultSettingsOf "/proj")).1 =
        (.ok st2,
         (defaultSettingsOf "/proj").componentsFolder.map Ev.parseComponentsCall) ∧
      parsePagesLoop envAllOk (defaultSettingsOf "/proj").srcDir st2 =
        (.ok st3, (defaultSettingsOf "/proj").srcDir.map Ev.parsePagesCall) ∧
      reResolveComponents envAllOk (defaultSettingsOf "/proj")
        (jsGeneratorOf (defaultSettingsOf "/proj")) st3 st3.componentsList =
        (.ok comps, evC) ∧
      pageResolveLoop envAllOk (defaultSettingsOf "/proj")
        (jsGeneratorOf (defaultSettingsOf "/proj")) st3.pagesList.length 0
        { st3 with componentsList := comps } = (.ok stQ, evP) ∧
      bundle envAllOk (defaultSettingsOf "/proj") = .ret true tr ∧
      resolveEvs tr = resolveEvs evC ++ resolveEvs evP ∧
      (resolveEvs evC).map Prod.fst =
        st3.componentsList.map (fun c => c.node.childNodes) ∧
      chainedTwice st3.pagesList.length (resolveEvs evP) :=
  c4_two_pass_resolution envAllOk (defaultSettingsOf "/proj")
    (envAllOk_envOk (defaultSettingsOf "/proj"))

/-- C7: checkpoint and plugin ordering.  In a completing `build` pass,
the trace is: the settings-file load, then the `configuration` hook
invocations, then the `beforeBuild` invocations, then directory
creation, then every component-directory parse, then every
source-directory parse, then resolver calls only, then alias
generation, then the `afterBuild` invocations, then the page dump,
then the `bundle` invocations; at each checkpoint the hook invocations
are exactly the plugins of the governing settings that declare the
hook, in declared order, none reordered, none skipped beyond absent
slots, none deduplicated. -/
theorem c7_checkpoint_order :
    ∀ (env : Env) (dirname : String),
      EnvOk env (loadSettings env (defaultSettingsOf dirname)).1 →
      ∃ confEvs evB resEvs evA evD,
        (magicBuild env dirname).2 = .ret true
          (Ev.loadFileCall :: confEvs ++ evB ++ [Ev.createDirCall] ++
           (loadSettings env (defaultSettingsOf dirname)).1.componentsFolder.map
             Ev.parseComponentsCall ++
           (loadSettings env (defaultSettingsOf dirname)).1.srcDir.map
             Ev.parsePagesCall ++
           resEvs ++ [Ev.aliasCall] ++ evA ++ [Ev.dumpCall] ++ evD) ∧
        hookEvs confEvs = hookCallsOf .configuration
          (fun p => p.configuration.isSome)
          (settingsAfterDedup env (defaultSettingsOf dirname)).plugins ∧
        hookEvs evB = hookCallsOf .beforeBuild (fun p => p.beforeBuild.isSome)
          (loadSettings env (defaultSettingsOf dirname)).1.plugins ∧
        (∀ e ∈ resEvs, evLabel e = EvLabel.resolveL) ∧
        hookEvs evA = hookCallsOf .afterBuild (fun p => p.afterBuild.isSome)
          (loadSettings env (defaultSettingsOf dirname)).1.plugins ∧
        hookEvs evD = hookCallsOf .bundleHook (fun p => p.bundle.isSome)
          (loadSettings env (defaultSettingsOf dirname)).1.plugins := by
  intro env dirname h
  obtain ⟨st2, st3, comps, stQ, newPages, evC, evP, hcomp, hpages, hre, hpl,
    halias, hmapC, hchain, hallC, hallP, hb⟩ :=
    bundle_shape env (loadSettings env (defaultSettingsOf dirname)).1 h
  refine ⟨(configurationStage env
      (settingsAfterDedup env (defaultSettingsOf dirname))).2,
    (beforeBuildStage (loadSettings env (defaultSettingsOf dirname)).1).2,
    evC ++ evP,
    (afterBuildStage (loadSettings env (defaultSettingsOf dirname)).1
      { stQ with pagesList := newPages }).2,
    (bundleHooksStage (loadSettings env (defaultSettingsOf dirname)).1
      (afterBuildStage (loadSettings env (defaultSettingsOf dirname)).1
        { stQ with pagesList := newPages }).1).2,
    ?_, ?_, ?_, ?_, ?_, ?_⟩
  · show ((bundle env (loadSettings env (defaultSettingsOf dirname)).1).prepend
      (loadSettings env (defaultSettingsOf dirname)).2) = _
    rw [hb]
    show BResult.ret true _ = _
    simp [loadSettings, List.append_assoc]
  · simp only [configurationStage]
    exact runHooks_hookEvs Plugin.configuration env.confHookImpl Ev.confCall
      configurationWarn defaultSettingDeepCopy HookKind.configuration
      (fun n st => rfl) _ _
  · simp only [beforeBuildStage]
    exact runHooks_hookEvs Plugin.beforeBuild (fun f => f)
      (Ev.hookCall .beforeBuild) beforeBuildWarn stateDeepCopy
      HookKind.beforeBuild (fun n st => rfl) _ _
  · intro e he
    rcases List.mem_append.mp he with hc | hp
    · obtain ⟨a, b, rfl⟩ := hallC e hc
      rfl
    · obtain ⟨a, b, rfl⟩ := hallP e hp
      rfl
  · simp only [afterBuildStage]
    exact runHooks_hookEvs Plugin.afterBuild (fun f => f)
      (Ev.hookCall .afterBuild) afterBuildWarn stateDeepCopy
      HookKind.afterBuild (fun n st => rfl) _ _
  · simp only [bundleHooksStage]
    exact runHooks_hookEvs Plugin.bundle (fun f => f)
      (Ev.hookCall .bundleHook) bundleHookWarn stateDeepCopy
      HookKind.bundleHook (fun n st => rfl) _ _

/-- C7, witness: the checkpoint ordering evaluated on a concrete build
pass in the all-succeeding environment. -/
theorem c7_checkpoint_order_witness :
    ∃ confEvs evB resEvs evA evD,
      (magicBuild envAllOk "/proj").2 = .ret true
        (Ev.loadFileCall :: confEvs ++ evB ++ [Ev.createDirCall] ++
         (loadSettings envAllOk (defaultSettingsOf "/proj")).1.componentsFolder.map
           Ev.parseComponentsCall ++
         (loadSettings envAllOk (defaultSettingsOf "/proj")).1.srcDir.map
           Ev.parsePagesCall ++
         resEvs ++ [Ev.aliasCall] ++ evA ++ [Ev.dumpCall] ++ evD) ∧
      hookEvs confEvs = hookCallsOf .configuration
        (fun p => p.configuration.isSome)
        (settingsAfterDedup envAllOk (defaultSettingsOf "/proj")).plugins ∧
      hookEvs evB = hookCallsOf .beforeBuild (fun p => p.beforeBuild.isSome)
        (loadSettings envAllOk (defaultSettingsOf "/proj")).1.plugins ∧
      (∀ e ∈ resEvs, evLabel e = EvLabel.resolveL) ∧
      hookEvs evA = hookCallsOf .afterBuild (fun p => p.afterBuild.isSome)
        (loadSettings envAllOk (defaultSettingsOf "/proj")).1.plugins ∧
      hookEvs evD = hookCallsOf .bundleHook (fun p => p.bundle.isSome)
        (loadSettings envAllOk (defaultSettingsOf "/proj")).1.plugins :=
  c7_checkpoint_order envAllOk "/proj"
    (envAllOk_envOk (loadSettings envAllOk (defaultSettingsOf "/proj")).1)

/-- Settings with a non-components containment pair in `srcDir`. -/
def sC8 : DefaultSettings :=
  { defaultSettingsOf "/p" with srcDir := ["/a", "/a/b"] }

/-- C8, counterexample: after `loadSettings`, `srcDir` still contains
`/a/b`, a strict sub-path of the distinct non-components entry `/a` —
the claimed containment invariant does not hold. -/
theorem c8_counterexample :
    (loadSettings envAllOk sC8).1.srcDir = ["/a", "/a/b"] ∧
    ("/a/b" : String) ≠ "/a" ∧ jsStartsWith "/a/b" "/a" = true ∧
    jsEndsWith "/a" "components" = false := by
  exact ⟨rfl, by decide, by decide, by decide⟩

/-- C8 (amended): at the end of the dedup step of `loadSettings`
(before any `configuration` hook fires), `srcDir` contains no entry
that starts with a distinct entry ending in the components suffix;
containment under non-components entries is not eliminated, and a
`configuration` hook may later replace `Settings` wholesale. -/
theorem c8_srcdir_dedup_invariant :
    ∀ (env : Env) (s : DefaultSettings) (a b : String),
      a ∈ (settingsAfterDedup env s).srcDir →
      b ∈ (settingsAfterDedup env s).srcDir →
      a ≠ b → jsEndsWith b "components" = true →
      jsStartsWith a b = false := by
  intro env s a b ha hb hne hend
  have hmem : a ∈ dedupSrcDir (settingsAfterFile env s).srcDir := ha
  have hbl : b ∈ (settingsAfterFile env s).srcDir :=
    ((mem_dedupSrcDir _ _).mp hb).1
  rw [mem_dedupSrcDir] at hmem
  by_contra hsw
  rw [Bool.not_eq_false] at hsw
  exact hmem.2 ⟨b, hbl, hne, hend, hsw⟩

/-- Settings with a components entry and an unrelated entry. -/
def sC8W : DefaultSettings :=
  { defaultSettingsOf "/p" with srcDir := ["/a/components", "/b"] }

/-- C8, witness: the amended invariant evaluated on concrete deduped
settings. -/
theorem c8_srcdir_dedup_invariant_witness :
    ("/b" ∈ (settingsAfterDedup envAllOk sC8W).srcDir) ∧
    ("/a/components" ∈ (settingsAfterDedup envAllOk sC8W).srcDir) ∧
    ("/b" : String) ≠ "/a/components" ∧
    jsEndsWith "/a/components" "components" = true ∧
    jsStartsWith "/b" "/a/components" = false :=
  ⟨by decide, by decide, by decide, by decide,
   c8_srcdir_dedup_invariant envAllOk sC8W "/b" "/a/components" (by decide)
     (by decide) (by decide) (by decide)⟩

end Spear
